import Mathlib

/-!
Verification of the boost-prompt extension against its specification.

The definitions below are a shallow embedding of the TypeScript sources:
`src/boostPrompt.ts` (the boost workflow), `src/utils.ts` (model registry,
file-eligibility filter, instruction-file store).  Host-environment effects
(the chat endpoint, the filesystem, user interaction) are passed in as
explicit parameters; code that may throw is modelled in `Except String`.
-/

/-- Status tag of `BoostPromptResult` (`src/boostPrompt.ts` lines 4-7). -/
inductive Status where
  | success
  | failed
  | terminated
deriving DecidableEq, Repr

/-- Result record of one boost attempt (`src/boostPrompt.ts` lines 4-7). -/
structure BoostPromptResult where
  result : String
  status : Status
deriving DecidableEq, Repr

/-- State of one path in the filesystem, as observed by `fs.existsSync` /
`fs.readFileSync`: missing, readable with some contents, or present but
throwing on read. -/
inductive FsEntry where
  | absent
  | file (contents : String)
  | unreadable
deriving DecidableEq, Repr

/-- Compiled-in default instruction template
(`src/utils.ts`, `DEFAULT_BOOST_INSTRUCTIONS`). -/
def DEFAULT_BOOST_INSTRUCTIONS : String :=
"You are a professional prompt engineer specializing in crafting precise, effective prompts.
Your task is to enhance prompts by making them more specific, actionable, and effective.

**Formatting Requirements:**
- Use Markdown formatting in your response.
- Present requirements, constraints, and steps as bulleted or numbered lists.
- Separate context, instructions, and examples into clear paragraphs.
- Use headings if appropriate.
- Ensure the prompt is easy to read and visually organized.

**Instructions:**
- Improve the user prompt wrapped in `<original_prompt>` tags.
- Make instructions explicit and unambiguous.
- Add relevant context and constraints.
- Remove redundant information.
- Maintain the core intent.
- Ensure the prompt is self-contained.
- Use professional language.
- Add references to documentation or examples if applicable.

**For invalid or unclear prompts:**
- Respond with clear, professional guidance.
- Keep responses concise and actionable.
- Maintain a helpful, constructive tone.
- Focus on what the user should provide.
- Use a standard template for consistency.

**IMPORTANT:**
Your response must ONLY contain the enhanced prompt text, formatted as described.
Do not include any explanations, metadata, or wrapper tags."

/-- Path of the instruction file (`src/utils.ts`, `getInstructionFilePath`);
`path.join(globalStoragePath, \x22boost.prompt.md\x22)` is modelled as
separator concatenation. -/
def getInstructionFilePath (globalStoragePath : String) : String :=
  globalStoragePath ++ "/" ++ "boost.prompt.md"

/-- Embedding of `readInstructionFile` (`src/utils.ts` lines 162-172): the
contents when the file exists and is readable; otherwise (missing file, or a
read error caught by the surrounding try) the compiled-in default. -/
def readInstructionFile (fs : String → FsEntry) (globalStoragePath : String) : String :=
  match fs (getInstructionFilePath globalStoragePath) with
  | FsEntry.file contents => contents
  | FsEntry.absent => DEFAULT_BOOST_INSTRUCTIONS
  | FsEntry.unreadable => DEFAULT_BOOST_INSTRUCTIONS

/-- Model of JavaScript `String.prototype.trim`: drop leading and trailing
whitespace characters. -/
def jsTrim (s : String) : String :=
  String.mk (((s.toList.dropWhile Char.isWhitespace).reverse.dropWhile
    Char.isWhitespace).reverse)

/-- A streamed chat response (`vscode.LanguageModelChatResponse`): the text
fragments produced in arrival order, and an optional exception thrown while
draining the stream.  On a mid-stream exception the partially accumulated
local string is discarded by the catch handler, so only the presence of the
error matters. -/
structure LanguageModelChatResponse where
  fragments : List String
  streamError : Option String
deriving DecidableEq, Repr

/-- Draining the stream (`for await (const chunk of response.text)` with
`enhanced += chunk`, `src/boostPrompt.ts` lines 40-43): left fold of string
append over the fragments, or the mid-stream exception. -/
def streamText (r : LanguageModelChatResponse) : Except String String :=
  match r.streamError with
  | some e => Except.error e
  | none => Except.ok (r.fragments.foldl (fun acc chunk => acc ++ chunk) "")

/-- A chat endpoint: `sendRequest` takes the single user message and either
throws, returns no response object, or returns a streamed response. -/
structure LanguageModelChat where
  send : String → Except String (Option LanguageModelChatResponse)

/-- The one outbound message (`src/boostPrompt.ts` line 20): instruction
template, blank line, and the prompt wrapped in `original_prompt` tags. -/
def boostMessage (instructions promptText : String) : String :=
  instructions ++ "\n\n<original_prompt>\n" ++ promptText ++ "\n</original_prompt>"

/-- Explicit try/catch on `Except`, mirroring a TypeScript `try { .. } catch`. -/
def exceptTryCatch (body : Except String BoostPromptResult)
    (handler : String → Except String BoostPromptResult) :
    Except String BoostPromptResult :=
  match body with
  | Except.ok a => Except.ok a
  | Except.error e => handler e

/-- Embedding of `boostPrompt` (`src/boostPrompt.ts` lines 12-60).  The outer
`exceptTryCatch` is the defensive top-level catch (lines 56-59); the inner
matches are the submission catch (lines 26-31), the falsy-response check
(lines 33-36), the streaming catch (lines 39-55) and the empty-after-trim
check (lines 45-48). -/
def boostPrompt (promptText : String) (model : LanguageModelChat)
    (fs : String → FsEntry) (globalStoragePath : String) :
    Except String BoostPromptResult :=
  exceptTryCatch
    (
      let instructions := readInstructionFile fs globalStoragePath
      let message := boostMessage instructions promptText
      match model.send message with
      | Except.error _ => Except.ok ⟨promptText, Status.failed⟩
      | Except.ok none => Except.ok ⟨promptText, Status.failed⟩
      | Except.ok (some response) =>
        match streamText response with
        | Except.error _ => Except.ok ⟨promptText, Status.failed⟩
        | Except.ok enhanced =>
          if jsTrim enhanced = "" then Except.ok ⟨promptText, Status.failed⟩
          else Except.ok ⟨enhanced, Status.success⟩
    )
    (fun _ => Except.ok ⟨promptText, Status.failed⟩)

/-- Descriptor of a chat endpoint as returned by the host's discovery call
(`vscode.lm.selectChatModels`): identifier, display name, family. -/
structure ModelDesc where
  id : String
  name : String
  family : String
deriving DecidableEq, Repr

/-- Embedding of `initializeAndCacheModels` (`src/utils.ts` lines 15-28).
`cache` is the previous value of `cachedAvailableModels`; `hostResult` is
the outcome of the host discovery call (`Except.error` when it throws); the
returned list is the new cache value.  The filter drops endpoints whose id
is the sentinel `auto`; the raw list's truthy-length check guards the
assignment. -/
def initializeAndCacheModels (cache : List ModelDesc)
    (hostResult : Except String (List ModelDesc)) : List ModelDesc :=
  match hostResult with
  | Except.error _ => cache
  | Except.ok models =>
    let filteredModels := models.filter (fun m => m.id != "auto")
    if models.length ≠ 0 then filteredModels else cache

/-- Embedding of `findModelByName` (`src/utils.ts` lines 34-36). -/
def findModelByName (cache : List ModelDesc) (modelName : String) : Option ModelDesc :=
  cache.find? (fun m => m.name == modelName)

/-- Observable outcome of model resolution: the returned endpoint (`none`
models `undefined`), whether the interactive quick-pick chooser was shown,
and the preference persisted by `setPreferredModel` (if any). -/
structure SelectOutcome where
  model : Option ModelDesc
  chooserShown : Bool
  savedPreference : Option String
deriving DecidableEq, Repr

/-- Embedding of `selectModel` (`src/utils.ts` lines 38-64).  `pick` is the
user's quick-pick choice as an index into the cached list (`none` when the
chooser is dismissed). -/
def selectModel (cache : List ModelDesc) (pick : Option Nat) : SelectOutcome :=
  if cache.length = 0 then ⟨none, false, none⟩
  else
    match pick with
    | none => ⟨none, true, none⟩
    | some i =>
      match cache[i]? with
      | none => ⟨none, true, none⟩
      | some m => ⟨some m, true, some m.name⟩

/-- Embedding of `getSelectedLanguageModel` (`src/utils.ts` lines 192-219).
`preferredName` is the stored preference (empty string when unset);
`warningAccept` is whether the user clicks `Select Model` on the
preferred-model-not-found warning. -/
def getSelectedLanguageModel (cache : List ModelDesc) (preferredName : String)
    (warningAccept : Bool) (pick : Option Nat) : SelectOutcome :=
  if cache.length = 0 then ⟨none, false, none⟩
  else if preferredName = "" then selectModel cache pick
  else
    match findModelByName cache preferredName with
    | some preferred => ⟨some preferred, false, none⟩
    | none =>
      if warningAccept then selectModel cache pick
      else ⟨none, false, none⟩

/-- Separator test of the basename split regex `[/\x5c\x5c]` in
`src/utils.ts` line 93: forward or back slash. -/
def isSepChar (c : Char) : Bool :=
  c == '/' || c == '\\'

/-- Model of JavaScript `fileName.split(/[/\x5c\x5c]/)`: split on every
separator character, keeping empty segments (the result is never empty). -/
def splitSegs : List Char → List (List Char)
  | [] => [[]]
  | c :: cs =>
    if isSepChar c then [] :: splitSegs cs
    else
      match splitSegs cs with
      | [] => [[c]]
      | s :: ss => (c :: s) :: ss

/-- Last element of a segment list (JavaScript `Array.prototype.pop` on a
non-empty array). -/
def lastSeg : List (List Char) → List Char
  | [] => []
  | [s] => s
  | _ :: rest => lastSeg rest

/-- Basename computation of `src/utils.ts` line 93:
`fileName.split(/[/\x5c\x5c]/).pop() || fileName` — the final path segment,
falling back to the whole file name when that segment is the empty string
(falsy). -/
def baseName (fileName : String) : String :=
  if (lastSeg (splitSegs fileName.toList)).isEmpty then fileName
  else String.mk (lastSeg (splitSegs fileName.toList))

/-- Token of a parsed glob pattern. -/
inductive GlobTok where
  | lit (c : Char)
  | star
  | qmark
  | cls (neg : Bool) (ranges : List (Char × Char))
deriving DecidableEq, Repr

/-- Modelled from the spec: bracket-class body parser of the `minimatch`
library (the library itself is an external dependency, not part of this
repository).  Reads class items up to the closing bracket, as single
characters or `a-b` ranges; returns `none` (malformed) when the class is
never closed.  The fuel argument only bounds recursion. -/
def readClass : Nat → List Char → Option (List (Char × Char) × List Char)
  | 0, _ => none
  | _ + 1, [] => none
  | _ + 1, ']' :: rest => some ([], rest)
  | f + 1, a :: '-' :: b :: rest =>
    if b == ']' then some ([(a, a), ('-', '-')], rest)
    else (readClass f rest).map (fun p => ((a, b) :: p.1, p.2))
  | f + 1, a :: rest => (readClass f rest).map (fun p => ((a, a) :: p.1, p.2))

/-- Modelled from the spec: pattern compiler of the `minimatch` library
(external dependency).  Shell-glob semantics per spec section 4.3: `*` is
any run of characters, `?` a single character, bracket classes with
optional leading negation; a malformed pattern yields `none`.  The fuel
argument only bounds recursion. -/
def parseGlobAux : Nat → List Char → Option (List GlobTok)
  | 0, _ => none
  | _ + 1, [] => some []
  | f + 1, '*' :: ps => (parseGlobAux f ps).map (fun ts => GlobTok.star :: ts)
  | f + 1, '?' :: ps => (parseGlobAux f ps).map (fun ts => GlobTok.qmark :: ts)
  | f + 1, '[' :: ps =>
    match ps with
    | '!' :: body =>
      match readClass f body with
      | none => none
      | some (ranges, rest) =>
        (parseGlobAux f rest).map (fun ts => GlobTok.cls true ranges :: ts)
    | '^' :: body =>
      match readClass f body with
      | none => none
      | some (ranges, rest) =>
        (parseGlobAux f rest).map (fun ts => GlobTok.cls true ranges :: ts)
    | body =>
      match readClass f body with
      | none => none
      | some (ranges, rest) =>
        (parseGlobAux f rest).map (fun ts => GlobTok.cls false ranges :: ts)
  | f + 1, c :: ps => (parseGlobAux f ps).map (fun ts => GlobTok.lit c :: ts)

/-- Parse a glob pattern string; `none` means the pattern is malformed. -/
def parseGlobPattern (pattern : String) : Option (List GlobTok) :=
  parseGlobAux (pattern.length + 1) pattern.toList

/-- Membership of a character in a bracket class given as ranges. -/
def inRanges (ranges : List (Char × Char)) (c : Char) : Bool :=
  ranges.any (fun r => decide (r.1 ≤ c) && decide (c ≤ r.2))

/-- Modelled from the spec: matcher of the `minimatch` library (external
dependency) on a parsed pattern, with backtracking for `*`.  The fuel
argument only bounds recursion. -/
def matchToks : Nat → List GlobTok → List Char → Bool
  | 0, _, _ => false
  | _ + 1, [], [] => true
  | _ + 1, [], _ :: _ => false
  | f + 1, GlobTok.star :: ts, s =>
    matchToks f ts s ||
      (match s with
       | [] => false
       | _ :: s' => matchToks f (GlobTok.star :: ts) s')
  | f + 1, GlobTok.qmark :: ts, _ :: ss => matchToks f ts ss
  | f + 1, GlobTok.cls neg ranges :: ts, c :: ss =>
    (inRanges ranges c != neg) && matchToks f ts ss
  | f + 1, GlobTok.lit p :: ts, c :: ss => (p == c) && matchToks f ts ss
  | _ + 1, _ :: _, [] => false

/-- Modelled from the spec: `minimatch(s, pattern)` — `true` iff the glob
pattern matches the whole string; a malformed pattern matches nothing. -/
def minimatch (s : String) (pattern : String) : Bool :=
  match parseGlobPattern pattern with
  | none => false
  | some toks => matchToks (toks.length + s.length + 1) toks s.toList

/-- Embedding of `isBoostEnabledForFile` (`src/utils.ts` lines 79-106) with
the configured pattern list passed explicitly (`none` models a null or
undefined configuration value).  No patterns, an empty list, or a literal
`*` entry enable every file; otherwise the basename must match at least one
pattern. -/
def isBoostEnabledForFile (fileName : String) (patterns : Option (List String)) : Bool :=
  match patterns with
  | none => true
  | some [] => true
  | some ps =>
    if ps.contains "*" then true
    else ps.any (fun pattern => minimatch (baseName fileName) pattern)

/-- C1: if the endpoint's `sendRequest` throws, `boostPrompt` returns the
original prompt text with status `failed`, and no exception escapes (the
call evaluates to `Except.ok`, never `Except.error`). -/
theorem boostPrompt_sendThrows (promptText : String) (model : LanguageModelChat)
    (fs : String → FsEntry) (globalStoragePath : String) (e : String)
    (h : model.send (boostMessage (readInstructionFile fs globalStoragePath) promptText)
      = Except.error e) :
    boostPrompt promptText model fs globalStoragePath
      = Except.ok ⟨promptText, Status.failed⟩ := by
  simp [boostPrompt, exceptTryCatch, h]

/-- Witness for C1 at a concrete throwing endpoint. -/
theorem boostPrompt_sendThrows_witness :
    boostPrompt "hello" ⟨fun _ => Except.error "boom"⟩ (fun _ => FsEntry.absent) "store"
      = Except.ok ⟨"hello", Status.failed⟩ :=
  boostPrompt_sendThrows "hello" ⟨fun _ => Except.error "boom"⟩
    (fun _ => FsEntry.absent) "store" "boom" rfl

/-- C2: if the stream completes but the concatenated fragments trim to the
empty string, `boostPrompt` returns the original prompt text with status
`failed`, not the whitespace concatenation. -/
theorem boostPrompt_whitespaceResult (promptText : String) (frags : List String)
    (fs : String → FsEntry) (globalStoragePath : String)
    (h : jsTrim (frags.foldl (fun acc chunk => acc ++ chunk) "") = "") :
    boostPrompt promptText ⟨fun _ => Except.ok (some ⟨frags, none⟩)⟩ fs globalStoragePath
      = Except.ok ⟨promptText, Status.failed⟩ := by
  simp [boostPrompt, exceptTryCatch, streamText, h]

/-- Witness for C2 at a whitespace-only fragment stream. -/
theorem boostPrompt_whitespaceResult_witness :
    boostPrompt "orig" ⟨fun _ => Except.ok (some ⟨[" ", "\t\n"], none⟩)⟩
      (fun _ => FsEntry.absent) "store"
      = Except.ok ⟨"orig", Status.failed⟩ :=
  boostPrompt_whitespaceResult "orig" [" ", "\t\n"]
    (fun _ => FsEntry.absent) "store" (by decide)

/-- C3: if the stream completes without error and the concatenation is not
whitespace-only, `boostPrompt` returns the fragments concatenated in arrival
order with status `success`. -/
theorem boostPrompt_streamSuccess (promptText : String) (frags : List String)
    (fs : String → FsEntry) (globalStoragePath : String)
    (h : jsTrim (frags.foldl (fun acc chunk => acc ++ chunk) "") ≠ "") :
    boostPrompt promptText ⟨fun _ => Except.ok (some ⟨frags, none⟩)⟩ fs globalStoragePath
      = Except.ok ⟨frags.foldl (fun acc chunk => acc ++ chunk) "", Status.success⟩ := by
  simp [boostPrompt, exceptTryCatch, streamText, h]

/-- Witness for C3, the spec's scenario: prompt `fix my bug`, fragments
`Please `, `describe `, `the bug.` give result `Please describe the bug.`
with status `success`. -/
theorem boostPrompt_streamSuccess_witness :
    boostPrompt "fix my bug"
      ⟨fun _ => Except.ok (some ⟨["Please ", "describe ", "the bug."], none⟩)⟩
      (fun _ => FsEntry.absent) "store"
      = Except.ok ⟨"Please describe the bug.", Status.success⟩ := by
  rw [boostPrompt_streamSuccess "fix my bug" ["Please ", "describe ", "the bug."]
    (fun _ => FsEntry.absent) "store" (by decide)]
  rfl

/-- C10: for every prompt, endpoint behavior and filesystem, `boostPrompt`
returns (without an escaping exception) a result whose status is `success`
or `failed`; the `terminated` tag of `BoostPromptResult` is never produced
by `boostPrompt` itself. -/
theorem boostPrompt_status_never_terminated (promptText : String)
    (model : LanguageModelChat) (fs : String → FsEntry) (globalStoragePath : String) :
    ∃ r, boostPrompt promptText model fs globalStoragePath = Except.ok r ∧
      (r.status = Status.success ∨ r.status = Status.failed) := by
  cases hsend : model.send (boostMessage (readInstructionFile fs globalStoragePath)
      promptText) with
  | error e =>
    exact ⟨⟨promptText, Status.failed⟩,
      by simp [boostPrompt, exceptTryCatch, hsend], Or.inr rfl⟩
  | ok resp =>
    cases resp with
    | none =>
      exact ⟨⟨promptText, Status.failed⟩,
        by simp [boostPrompt, exceptTryCatch, hsend], Or.inr rfl⟩
    | some response =>
      cases hstream : response.streamError with
      | some err =>
        exact ⟨⟨promptText, Status.failed⟩,
          by simp [boostPrompt, exceptTryCatch, streamText, hsend, hstream], Or.inr rfl⟩
      | none =>
        by_cases hw : jsTrim (response.fragments.foldl (fun acc chunk => acc ++ chunk) "") = ""
        · exact ⟨⟨promptText, Status.failed⟩,
            by simp [boostPrompt, exceptTryCatch, streamText, hsend, hstream, hw], Or.inr rfl⟩
        · exact ⟨⟨response.fragments.foldl (fun acc chunk => acc ++ chunk) "", Status.success⟩,
            by simp [boostPrompt, exceptTryCatch, streamText, hsend, hstream, hw], Or.inl rfl⟩

/-- Rebuilding a string from its character list is the identity. -/
theorem string_mk_toList (s : String) : String.mk s.toList = s := rfl

/-- A non-empty string has a non-empty character list. -/
theorem toList_ne_nil_of_ne_empty (s : String) (h : s ≠ "") : s.toList ≠ [] := by
  intro h0
  exact h (String.ext h0)

/-- The segment split never produces the empty list. -/
theorem splitSegs_ne_nil : ∀ (l : List Char), splitSegs l ≠ []
  | [] => by simp [splitSegs]
  | c :: cs => by
    by_cases hc : isSepChar c = true
    · simp [splitSegs, hc]
    · cases hsplit : splitSegs cs with
      | nil => exact absurd hsplit (splitSegs_ne_nil cs)
      | cons s ss => simp [splitSegs, hc, hsplit]

/-- Splitting a separator-free list yields a single segment. -/
theorem splitSegs_noSep : ∀ (l : List Char), (∀ c ∈ l, isSepChar c = false) →
    splitSegs l = [l]
  | [], _ => rfl
  | c :: cs, h => by
    have hc : isSepChar c = false := h c (List.mem_cons_self c cs)
    have ih := splitSegs_noSep cs (fun x hx => h x (List.mem_cons_of_mem c hx))
    simp [splitSegs, hc, ih]

/-- Splitting distributes over a separator occurrence. -/
theorem splitSegs_append_sep (sep : Char) (hsep : isSepChar sep = true) :
    ∀ (xs ys : List Char), splitSegs (xs ++ sep :: ys) = splitSegs xs ++ splitSegs ys
  | [], ys => by simp [splitSegs, hsep]
  | x :: xs, ys => by
    have ih := splitSegs_append_sep sep hsep xs ys
    by_cases hx : isSepChar x = true
    · simp [splitSegs, hx, ih]
    · cases hs : splitSegs xs with
      | nil => exact absurd hs (splitSegs_ne_nil xs)
      | cons s ss =>
        rw [List.cons_append]
        simp [splitSegs, hx, ih, hs]

/-- Dropping the head of a segment list keeps the last segment. -/
theorem lastSeg_cons_of_ne_nil (a : List Char) (l : List (List Char)) (h : l ≠ []) :
    lastSeg (a :: l) = lastSeg l := by
  cases l with
  | nil => exact absurd rfl h
  | cons b bs => rfl

/-- The last segment of a concatenation with a non-empty tail. -/
theorem lastSeg_append (A B : List (List Char)) (h : B ≠ []) :
    lastSeg (A ++ B) = lastSeg B := by
  induction A with
  | nil => rfl
  | cons a A ih =>
    rw [List.cons_append, lastSeg_cons_of_ne_nil a (A ++ B)
      (fun hAB => h (List.append_eq_nil.mp hAB).2), ih]

/-- The basename of a non-empty separator-free string is the string itself. -/
theorem baseName_noSep (base : String) (hb : base ≠ "")
    (hfree : ∀ c ∈ base.toList, isSepChar c = false) : baseName base = base := by
  have hne : base.toList ≠ [] := toList_ne_nil_of_ne_empty base hb
  rw [baseName, splitSegs_noSep base.toList hfree]
  rw [show lastSeg [base.toList] = base.toList from rfl]
  rw [if_neg (by simp only [List.isEmpty_iff]; exact hne)]
  exact string_mk_toList base

/-- The basename of `dir ++ sep ++ base` is `base` whenever `base` is
non-empty and separator-free. -/
theorem baseName_concat (dir base : String) (sep : Char) (hsep : isSepChar sep = true)
    (hb : base ≠ "") (hfree : ∀ c ∈ base.toList, isSepChar c = false) :
    baseName (dir ++ String.mk [sep] ++ base) = base := by
  have hne : base.toList ≠ [] := toList_ne_nil_of_ne_empty base hb
  have htl : (dir ++ String.mk [sep] ++ base).toList = dir.toList ++ sep :: base.toList := by
    show (dir ++ String.mk [sep] ++ base).data = dir.data ++ sep :: base.data
    simp [String.data_append]
  rw [baseName, htl, splitSegs_append_sep sep hsep dir.toList base.toList,
    splitSegs_noSep base.toList hfree,
    lastSeg_append (splitSegs dir.toList) [base.toList] (by simp)]
  rw [show lastSeg [base.toList] = base.toList from rfl]
  rw [if_neg (by simp only [List.isEmpty_iff]; exact hne)]
  exact string_mk_toList base

/-- C4 counterexample: with a non-empty previous cache and a host call that
returns the empty list, `initializeAndCacheModels` leaves the previous cache
in place instead of replacing it with the (empty) filtered result, so the
cache is not replaced for every host result list. -/
theorem initializeAndCacheModels_emptyHost_cex :
    initializeAndCacheModels [⟨"m1", "Model One", "gpt"⟩] (Except.ok []) ≠
      ([] : List ModelDesc) := by decide

/-- C4 amended: `initializeAndCacheModels` replaces the cache with the
`auto`-filtered host list only when the raw host list is non-empty; an empty
host list, like a host call that throws, leaves the previous cache
untouched. -/
theorem initializeAndCacheModels_amended (cache : List ModelDesc)
    (hostResult : Except String (List ModelDesc)) :
    initializeAndCacheModels cache hostResult =
      match hostResult with
      | Except.error _ => cache
      | Except.ok models =>
        if models.isEmpty then cache
        else models.filter (fun m => m.id != "auto") := by
  cases hostResult with
  | error e => rfl
  | ok models =>
    cases models with
    | nil => rfl
    | cons m ms => simp [initializeAndCacheModels]

/-- C5: with an empty model cache, `getSelectedLanguageModel` returns no
model, never shows the interactive chooser, and persists nothing, whatever
the stored preference and the would-be user interactions. -/
theorem getSelectedLanguageModel_emptyCache (preferredName : String)
    (warningAccept : Bool) (pick : Option Nat) :
    getSelectedLanguageModel [] preferredName warningAccept pick =
      ⟨none, false, none⟩ := rfl

/-- C6: a null/undefined pattern configuration, an empty pattern list, or a
list containing the literal `*` makes every file eligible. -/
theorem isBoostEnabledForFile_universalTrue (fileName : String)
    (patterns : Option (List String))
    (h : patterns = none ∨ patterns = some [] ∨
      ∃ l, patterns = some l ∧ "*" ∈ l) :
    isBoostEnabledForFile fileName patterns = true := by
  rcases h with rfl | rfl | ⟨l, rfl, hl⟩
  · rfl
  · rfl
  · cases l with
    | nil => rfl
    | cons p ps =>
      have hc : (p :: ps).contains "*" = true := by
        simpa using List.elem_iff.mpr hl
      simp only [isBoostEnabledForFile]
      rw [hc, if_pos rfl]

/-- Witness for C6 at the wildcard list. -/
theorem isBoostEnabledForFile_universalTrue_witness :
    isBoostEnabledForFile "anything.txt" (some ["*"]) = true :=
  isBoostEnabledForFile_universalTrue "anything.txt" (some ["*"])
    (Or.inr (Or.inr ⟨["*"], rfl, by decide⟩))

/-- C7 counterexample: eligibility does not depend only on the final path
segment.  For `fileName = "a" ++ "/" ++ ""` the split's last segment is
empty, so the basename computation falls back to the whole file name `a/`,
which the pattern `a/` matches, while the final path segment `""` does not
match it. -/
theorem isBoostEnabledForFile_basename_cex :
    isBoostEnabledForFile ("a" ++ "/" ++ "") (some ["a/"]) ≠
      isBoostEnabledForFile "" (some ["a/"]) := by decide

/-- C7 amended: eligibility depends only on the final path segment whenever
that segment is non-empty: for every directory prefix, separator (forward
or back slash) and non-empty separator-free base name,
`isBoostEnabledForFile (dir ++ sep ++ base)` agrees with
`isBoostEnabledForFile base` on every pattern configuration. -/
theorem isBoostEnabledForFile_basename_amended (dir base : String) (sep : Char)
    (patterns : Option (List String)) (hsep : isSepChar sep = true)
    (hb : base ≠ "") (hfree : ∀ c ∈ base.toList, isSepChar c = false) :
    isBoostEnabledForFile (dir ++ String.mk [sep] ++ base) patterns =
      isBoostEnabledForFile base patterns := by
  cases patterns with
  | none => rfl
  | some l =>
    cases l with
    | nil => rfl
    | cons p ps =>
      simp only [isBoostEnabledForFile]
      rw [baseName_concat dir base sep hsep hb hfree, baseName_noSep base hb hfree]

/-- Witness for the amended C7 at the spec's example shape. -/
theorem isBoostEnabledForFile_basename_amended_witness :
    isBoostEnabledForFile ("a/b" ++ String.mk ['/'] ++ "c.md") (some ["*.md"]) =
      isBoostEnabledForFile "c.md" (some ["*.md"]) :=
  isBoostEnabledForFile_basename_amended "a/b" "c.md" '/' (some ["*.md"])
    rfl (by decide) (by decide)

/-- C8: a malformed glob pattern (one the pattern compiler rejects) degrades
to `no match` for that pattern only: prepending it to a non-empty pattern
list never changes the eligibility decision, and the evaluation is a total
function (no exception is raised). -/
theorem isBoostEnabledForFile_malformed_degrades (fileName pat : String)
    (ps : List String) (hmal : parseGlobPattern pat = none) (hne : ps ≠ []) :
    isBoostEnabledForFile fileName (some (pat :: ps)) =
      isBoostEnabledForFile fileName (some ps) := by
  have hpat : pat ≠ "*" := by
    intro hp
    rw [hp] at hmal
    exact absurd hmal (by decide)
  have hbe : ("*" == pat) = false := beq_eq_false_iff_ne.mpr (Ne.symm hpat)
  have hmm : minimatch (baseName fileName) pat = false := by
    simp [minimatch, hmal]
  cases ps with
  | nil => exact absurd rfl hne
  | cons q qs =>
    simp only [isBoostEnabledForFile]
    have hcont : (pat :: q :: qs).contains "*" = (q :: qs).contains "*" := by
      simp [List.contains, List.elem, hbe]
    rw [hcont]
    by_cases hc : (q :: qs).contains "*" = true
    · rw [if_pos hc, if_pos hc]
    · rw [if_neg hc, if_neg hc, List.any_cons, hmm]
      simp

/-- Witness for C8: an unclosed bracket class leaves the other patterns
still able to match. -/
theorem isBoostEnabledForFile_malformed_degrades_witness :
    isBoostEnabledForFile "notes.md" (some ["[ab", "*.md"]) =
      isBoostEnabledForFile "notes.md" (some ["*.md"]) :=
  isBoostEnabledForFile_malformed_degrades "notes.md" "[ab" ["*.md"]
    (by decide) (by decide)

/-- C9 counterexample: when the instruction file is present and readable
with empty contents, `readInstructionFile` returns the empty string, so it
does not always return a non-empty instruction string. -/
theorem readInstructionFile_empty_cex :
    readInstructionFile (fun _ => FsEntry.file "") "store" = "" := rfl

/-- C9 amended: `readInstructionFile` never raises; it returns the file's
contents when the file is present and readable, and otherwise (missing, or
unreadable with the exception caught) the compiled-in default, which is
non-empty — but a present readable file with empty contents is returned
verbatim. -/
theorem readInstructionFile_amended (fs : String → FsEntry)
    (globalStoragePath : String) :
    (∀ c, fs (getInstructionFilePath globalStoragePath) = FsEntry.file c →
      readInstructionFile fs globalStoragePath = c) ∧
    (fs (getInstructionFilePath globalStoragePath) = FsEntry.absent →
      readInstructionFile fs globalStoragePath = DEFAULT_BOOST_INSTRUCTIONS) ∧
    (fs (getInstructionFilePath globalStoragePath) = FsEntry.unreadable →
      readInstructionFile fs globalStoragePath = DEFAULT_BOOST_INSTRUCTIONS) ∧
    DEFAULT_BOOST_INSTRUCTIONS ≠ "" := by
  refine ⟨fun c hc => ?_, fun h => ?_, fun h => ?_, by decide⟩
  · simp [readInstructionFile, hc]
  · simp [readInstructionFile, h]
  · simp [readInstructionFile, h]

/-- Witness for the amended C9 at a missing file. -/
theorem readInstructionFile_amended_witness :
    readInstructionFile (fun _ => FsEntry.absent) "store" = DEFAULT_BOOST_INSTRUCTIONS :=
  (readInstructionFile_amended (fun _ => FsEntry.absent) "store").2.1 rfl
